import Mathlib

/-!
Shallow embedding of the cineDeep server core: the TTL caches and the quota
counter (`server/cache.ts`), the thread store (`server/storage.ts`), and the
route-handler logic of the discussion/insights routes. Time is modelled as a
Nat clock in milliseconds (JS `Date.getTime()`); serialized JSON payloads are
modelled as opaque strings; every `try/catch` wrapped around a database
action in `cache.ts` is modelled by a `dbFail` flag that selects the catch
branch of that function.
-/

namespace CineDeep

/-- Milliseconds per day, `1000 * 60 * 60 * 24`. -/
def msPerDay : Nat := 86400000

/-! ### TMDB metadata cache (`server/cache.ts`) -/

/-- A row of the `tmdb_cache` table (`shared/schema.ts`); unique on
`(tmdbId, mediaType)`. `data` holds the serialized payload. -/
structure CacheEntry where
  tmdbId : Int
  mediaType : String
  data : String
  expiresAt : Nat
deriving DecidableEq

/-- The `(tmdbId, mediaType)` key predicate used by the cache queries. -/
def cacheKeyMatch (tmdbId : Int) (mediaType : String) (e : CacheEntry) : Bool :=
  e.tmdbId == tmdbId && e.mediaType == mediaType

/-- Embeds `getTMDBFromCache` (`server/cache.ts` lines 8-30): select a row matching
the key with `expiresAt > now`, return its payload; no row, or any storage
error (the catch branch, selected by `dbFail`), yields `null` (a miss). -/
def getTMDBFromCache (dbFail : Bool) (cache : List CacheEntry)
    (tmdbId : Int) (mediaType : String) (now : Nat) : Option String :=
  if dbFail then none
  else
    match cache.find? (fun e => cacheKeyMatch tmdbId mediaType e && decide (now < e.expiresAt)) with
    | some e => some e.data
    | none => none

/-- TMDB cache TTL: 30 days (`expiresAt.setDate(expiresAt.getDate() + 30)`),
modelled as 30 days of milliseconds. -/
def tmdbCacheTtlMs : Nat := 30 * msPerDay

/-- The upsert performed by `cacheTMDBData`: `onConflictDoUpdate` on the
`(tmdbId, mediaType)` unique key replaces `data` and `expiresAt` of the
existing row, otherwise a new row is inserted. -/
def upsertTMDB (cache : List CacheEntry) (tmdbId : Int) (mediaType : String)
    (data : String) (expiresAt : Nat) : List CacheEntry :=
  if cache.any (cacheKeyMatch tmdbId mediaType) then
    cache.map (fun e =>
      if cacheKeyMatch tmdbId mediaType e then
        { e with data := data, expiresAt := expiresAt }
      else e)
  else cache ++ [⟨tmdbId, mediaType, data, expiresAt⟩]

/-- Embeds `cacheTMDBData` (`server/cache.ts` lines 35-60): upsert with expiry
`now + 30 days`; any storage error (catch branch, selected by `dbFail`) is
swallowed, leaving the cache unchanged and the caller unaffected. -/
def cacheTMDBData (dbFail : Bool) (cache : List CacheEntry)
    (tmdbId : Int) (mediaType : String) (data : String) (now : Nat) : List CacheEntry :=
  if dbFail then cache
  else upsertTMDB cache tmdbId mediaType data (now + tmdbCacheTtlMs)

/-! ### AI-insight cache (`server/cache.ts`) -/

/-- A row of the `insights_cache` table; unique on `(tmdbId, mediaType)`. -/
structure InsightsEntry where
  tmdbId : Int
  mediaType : String
  title : String
  synopsis : String
  insights : String
  expiresAt : Nat
deriving DecidableEq

/-- Key predicate for the insights cache. -/
def insightsKeyMatch (tmdbId : Int) (mediaType : String) (e : InsightsEntry) : Bool :=
  e.tmdbId == tmdbId && e.mediaType == mediaType

/-- Embeds `getInsightsFromCache` (`server/cache.ts` lines 65-87): same shape as
`getTMDBFromCache`, over the insights cache. -/
def getInsightsFromCache (dbFail : Bool) (cache : List InsightsEntry)
    (tmdbId : Int) (mediaType : String) (now : Nat) : Option String :=
  if dbFail then none
  else
    match cache.find? (fun e => insightsKeyMatch tmdbId mediaType e && decide (now < e.expiresAt)) with
    | some e => some e.insights
    | none => none

/-- Insights cache TTL: 90 days. -/
def insightsCacheTtlMs : Nat := 90 * msPerDay

/-- Embeds `cacheInsights` (`server/cache.ts` lines 92-125): upsert with expiry
`now + 90 days`; `onConflictDoUpdate` replaces only `insights` and
`expiresAt` on an existing row; storage errors are swallowed. -/
def cacheInsights (dbFail : Bool) (cache : List InsightsEntry)
    (tmdbId : Int) (mediaType : String) (title synopsis insights : String)
    (now : Nat) : List InsightsEntry :=
  if dbFail then cache
  else
    if cache.any (insightsKeyMatch tmdbId mediaType) then
      cache.map (fun e =>
        if insightsKeyMatch tmdbId mediaType e then
          { e with insights := insights, expiresAt := now + insightsCacheTtlMs }
        else e)
    else cache ++ [⟨tmdbId, mediaType, title, synopsis, insights, now + insightsCacheTtlMs⟩]

/-! ### Per-user daily quota (`server/cache.ts`) -/

/-- A row of the `user_insight_quota` table. `lastResetAt` defaults to the
insertion time (`CURRENT_TIMESTAMP`), `dailyLimit` to 5. -/
structure QuotaRow where
  userId : String
  insightsGeneratedToday : Nat
  lastResetAt : Nat
  dailyLimit : Nat
deriving DecidableEq

/-- Embeds `checkInsightQuota` (`server/cache.ts` lines 130-173). First-ever check
inserts a fresh row (count 0, limit 5, `lastResetAt` defaulting to now) and
allows. If at least one day elapsed since `lastResetAt`
(`(now - lastResetAt) / msPerDay >= 1`, i.e. `msPerDay ≤ now - lastResetAt`),
the counter resets to zero, `lastResetAt` moves to now, and the check allows.
Otherwise it allows iff `count < dailyLimit`. Any storage error fails open
(catch branch, selected by `dbFail`: allow, table untouched). -/
def checkInsightQuota (dbFail : Bool) (rows : List QuotaRow)
    (userId : String) (now : Nat) : Bool × List QuotaRow :=
  if dbFail then (true, rows)
  else
    match rows.find? (fun r => r.userId == userId) with
    | none => (true, rows ++ [⟨userId, 0, now, 5⟩])
    | some r =>
      if msPerDay ≤ now - r.lastResetAt then
        (true, rows.map (fun q =>
          if q.userId == userId then
            { q with insightsGeneratedToday := 0, lastResetAt := now }
          else q))
      else
        (decide (r.insightsGeneratedToday < r.dailyLimit), rows)

/-- Embeds `incrementInsightCount` (`server/cache.ts` lines 178-189). The
source sets `insightsGeneratedToday` to
`userInsightQuota.insightsGeneratedToday + 1`, which adds 1 to the drizzle
Column object rather than to the stored value: the Column coerces to the
string "[object Object]1", Postgres rejects that value for the integer
column, and the catch branch swallows the error — exactly as it swallows an
injected storage error. Observably the table is therefore returned
unchanged in every case, and the counter never increments at runtime. -/
def incrementInsightCount (dbFail : Bool) (rows : List QuotaRow)
    (_userId : String) : List QuotaRow :=
  if dbFail then rows else rows

/-- One allow-then-increment cycle of the quota protocol: run the check, and
on allow run the increment (the caller increments only after a successful
generation). -/
def quotaStep (rows : List QuotaRow) (userId : String) (now : Nat) : Bool × List QuotaRow :=
  let c := checkInsightQuota false rows userId now
  if c.1 then (true, incrementInsightCount false c.2 userId) else (false, c.2)

/-- Runs `n` consecutive allow-then-increment cycles at a fixed clock; returns
`false` as soon as a check denies. -/
def quotaRun : Nat → List QuotaRow → String → Nat → Bool × List QuotaRow
  | 0, rows, _, _ => (true, rows)
  | n + 1, rows, userId, now =>
    let s := quotaStep rows userId now
    if s.1 then quotaRun n s.2 userId now else (false, s.2)

/-! ### Vote store (`server/storage.ts`) -/

/-- A row of the `post_votes` table; primary key `(postId, userId)`;
`value` is an integer weight defaulting to 1. -/
structure VoteRow where
  postId : String
  userId : String
  value : Int
deriving DecidableEq

/-- The `(postId, userId)` key predicate of the vote queries. -/
def voteKeyMatch (postId userId : String) (v : VoteRow) : Bool :=
  v.postId == postId && v.userId == userId

/-- The aggregate `coalesce(sum(post_votes.value), 0)` restricted to one post, as computed
by `toggleVote` and `getPostsForTopic`. -/
def voteCount (votes : List VoteRow) (postId : String) : Int :=
  ((votes.filter (fun v => v.postId == postId)).map (fun v => v.value)).sum

/-- Embeds `DatabaseStorage.toggleVote` (`server/storage.ts` lines 237-258): if a
row exists for `(postId, userId)` delete it, else insert one with value 1;
recompute the total of the post; return `(voted, newCount)` (here as the first
component) together with the table after the call. -/
def toggleVote (votes : List VoteRow) (postId userId : String) :
    (Bool × Int) × List VoteRow :=
  match votes.find? (voteKeyMatch postId userId) with
  | some _ =>
    let votes1 := votes.filter (fun v => !(voteKeyMatch postId userId v))
    ((false, voteCount votes1 postId), votes1)
  | none =>
    let votes1 := votes ++ [⟨postId, userId, 1⟩]
    ((true, voteCount votes1 postId), votes1)

/-! ### Thread store and discussion route handlers -/

/-- A row of the `discussion_topics` table (fields used by the core). -/
structure Topic where
  id : String
  tmdbId : Int
  mediaType : String
  title : String
  prompt : String
  createdBy : String
  lastActivityAt : Nat
deriving DecidableEq

/-- A row of the `discussion_posts` table. -/
structure Post where
  id : String
  topicId : String
  parentPostId : Option String
  authorId : String
  body : String
  depth : Nat
  createdAt : Nat
deriving DecidableEq

/-- Topics and posts of the relational store, as touched by the discussion
route handlers. -/
structure ThreadState where
  topics : List Topic
  posts : List Post
deriving DecidableEq

/-- The error taxonomy surfaced by the handlers: 400 on schema validation
failure, 404 on a missing topic/post. -/
inductive ApiError where
  | validation
  | notFound
deriving DecidableEq

/-- JS truthiness of an optional string (`undefined`, `null` and `""` are
falsy), as used by `parsed.data.parentPostId || null`, `if (!title)` and
similar guards. An absent or empty string is modelled alike. -/
def strTruthy : Option String → Bool
  | some s => !(s == "")
  | none => false

/-- The posts of one topic, as fetched by `getPostsForTopic` (the vote/author
annotations are irrelevant to the depth lookup that uses it). -/
def postsForTopic (posts : List Post) (topicId : String) : List Post :=
  posts.filter (fun p => p.topicId == topicId)

/-- The `POST /api/topics` handler with `createTopicSchema` (route file
lines 77-82 and 638-655): validation requires `mediaType ∈ {movie, tv}` and
`5 ≤ prompt.length ≤ 500` (`z.string().min(5).max(500)`); on success
`storage.createTopic` inserts the row and the topic is returned. On
validation failure a 400 is returned and nothing is written. -/
def createTopicHandler (st : ThreadState) (tmdbId : Int)
    (mediaType title prompt userId newId : String) (now : Nat) :
    Except ApiError Topic × ThreadState :=
  if (mediaType == "movie" || mediaType == "tv")
      && decide (5 ≤ prompt.length) && decide (prompt.length ≤ 500) then
    let topic : Topic := ⟨newId, tmdbId, mediaType, title, prompt, userId, now⟩
    (.ok topic, { st with topics := st.topics ++ [topic] })
  else
    (.error .validation, st)

/-- The `POST /api/topics/:topicId/posts` handler (route file lines
693-739) with `createPostSchema` (`body` length in [1, 5000]) and
`storage.createPost`: validate the body; 404 when the topic does not
resolve; when a parent id is supplied (truthy), look it up among the posts
of this topic and set `depth = parentPost.depth + 1` when found, else
`depth = 0`; insert the post storing the supplied parent id verbatim
(`parentPostId || null`), then bump the `lastActivityAt` of the topic. On an
error path the state is returned unchanged (all writes happen after the
checks). -/
def createPostHandler (st : ThreadState) (topicId userId body : String)
    (parentPostId : Option String) (newId : String) (now : Nat) :
    Except ApiError Post × ThreadState :=
  if !(decide (1 ≤ body.length) && decide (body.length ≤ 5000)) then
    (.error .validation, st)
  else
    match st.topics.find? (fun t => t.id == topicId) with
    | none => (.error .notFound, st)
    | some _ =>
      let depth : Nat :=
        if strTruthy parentPostId then
          match (postsForTopic st.posts topicId).find?
              (fun p => some p.id == parentPostId) with
          | some parentPost => parentPost.depth + 1
          | none => 0
        else 0
      let storedParent := if strTruthy parentPostId then parentPostId else none
      let post : Post := ⟨newId, topicId, storedParent, userId, body, depth, now⟩
      let st1 : ThreadState :=
        { topics := st.topics.map (fun t =>
            if t.id == topicId then { t with lastActivityAt := now } else t),
          posts := st.posts ++ [post] }
      (.ok post, st1)

/-! ### Box-office verdict (`determineVerdict`, route file lines 272-282) -/

/-- Embeds `determineVerdict`: a zero budget short-circuits to `N/A` before the
division; otherwise the first matching threshold on `revenue / budget`, in
the order 5, 3, 2, 1.2, 0.8, 0.5, picks the label. JS numbers are modelled
as exact rationals. -/
def determineVerdict (budget revenue : ℚ) : String :=
  if budget = 0 then "N/A"
  else
    let q := revenue / budget
    if 5 ≤ q then "Blockbuster"
    else if 3 ≤ q then "Super Hit"
    else if 2 ≤ q then "Hit"
    else if 6 / 5 ≤ q then "Average"
    else if 4 / 5 ≤ q then "Flop"
    else if 1 / 2 ≤ q then "Super Flop"
    else "Disaster"

/-- Rank of a verdict label, ascending from worst to best; used to state
monotonicity of `determineVerdict` in the revenue/budget ratio. -/
def verdictRank : String → Nat
  | "Super Flop" => 1
  | "Flop" => 2
  | "Average" => 3
  | "Hit" => 4
  | "Super Hit" => 5
  | "Blockbuster" => 6
  | _ => 0

/-! ### Actor recent-work enrichment (`fetchActorProjects`) -/

/-- One entry of the TMDB person combined-credits `cast` array. Dates are
JS timestamps; an absent or empty date string is modelled as `none` (both
are falsy under `||`). Likewise for `title`/`name`. -/
structure CastCredit where
  id : Int
  title : Option String
  name : Option String
  releaseDate : Option Nat
  firstAirDate : Option Nat
deriving DecidableEq

/-- The far-future sentinel used by the sort comparator for undated items:
the timestamp of 1 Jan 9999 UTC in milliseconds, which is what the JS Date
constructor yields on the string 9999. -/
def farFuture : Nat := 253370764800000

/-- The fallback chain of `release_date` and `first_air_date`. -/
def creditDate (c : CastCredit) : Option Nat :=
  c.releaseDate.or c.firstAirDate

/-- The filter of `fetchActorProjects`: keep undated items, and dated items
with `date >= ` the cutoff (`new Date(year - 2, month, date)`, passed in
here as a timestamp). -/
def creditKeep (cutoff : Nat) (c : CastCredit) : Bool :=
  match creditDate c with
  | none => true
  | some d => decide (cutoff ≤ d)

/-- The sort key: the date of the item, or the far-future sentinel when undated
(the date of the item, defaulting to the far-future sentinel). -/
def creditSortKey (c : CastCredit) : Nat :=
  (creditDate c).getD farFuture

/-- Stable insertion of `c` into a list sorted descending by `key`: `c` goes
after every element with a strictly larger or equal key, matching the
stability of `Array.prototype.sort`. -/
def insertDescBy {α : Type} (key : α → Nat) (c : α) : List α → List α
  | [] => [c]
  | x :: xs => if key x < key c then c :: x :: xs else x :: insertDescBy key c xs

/-- Stable sort, descending by `key`; models the ECMAScript stable
`Array.prototype.sort` with comparator `dateB - dateA`. -/
def sortDescBy {α : Type} (key : α → Nat) : List α → List α
  | [] => []
  | x :: xs => insertDescBy key x (sortDescBy key xs)

/-- The fallback chain of `title`, `name` and the literal Untitled. -/
def creditDisplayTitle (c : CastCredit) : String :=
  (c.title.or c.name).getD "Untitled"

/-- Embeds `fetchActorProjects` (route file lines 146-168): fetch the
combined credits (`credits` here; `providerFail` selects the catch branch of
any provider/cache failure, which returns `[]`), filter to undated or
recent items, sort descending by date with the far-future sentinel for
undated ones, take the first 3, and map to display titles. -/
def fetchActorProjects (providerFail : Bool) (credits : List CastCredit)
    (cutoff : Nat) : List String :=
  if providerFail then []
  else
    ((sortDescBy creditSortKey (credits.filter (creditKeep cutoff))).take 3).map
      creditDisplayTitle

/-! ### Insights route handler (`POST /api/title/:type/:id/insights`) -/

/-- The externally observable response of the insights handler. -/
inductive InsightsResponse where
  | ok (payload : String)
  | badRequest
  | rateLimited
  | serverError
deriving DecidableEq

/-- Result of one insights request: the response, the two mutated tables,
and whether the quota check and the text-generation provider were invoked. -/
structure InsightsOutcome where
  response : InsightsResponse
  insightsCacheAfter : List InsightsEntry
  quotaAfter : List QuotaRow
  quotaChecked : Bool
  providerCalled : Bool
deriving DecidableEq

/-- The `POST /api/title/:type/:id/insights` handler (route file lines
383-485): 400 when `title` is falsy; then cache-first (`getInsightsFromCache`);
on a hit the cached payload is returned with no quota check and no provider
call; on a miss, when a user is logged in, `checkInsightQuota` gates the
request (429 when exhausted); then the provider is called (`providerContent`
is its response content, `none` when absent, giving a 500); the parsed,
id-tagged insights payload (opaque here) is cached via `cacheInsights`
(`cacheWriteFail` selects its swallowed catch branch) and the quota counter
is incremented for a logged-in user. -/
def insightsHandler (cacheWriteFail : Bool) (icache : List InsightsEntry)
    (qrows : List QuotaRow) (userId : Option String) (title : Option String)
    (synopsis : String) (providerContent : Option String)
    (tmdbId : Int) (mediaType : String) (now : Nat) : InsightsOutcome :=
  if !(strTruthy title) then
    ⟨.badRequest, icache, qrows, false, false⟩
  else
    match getInsightsFromCache false icache tmdbId mediaType now with
    | some cached => ⟨.ok cached, icache, qrows, false, false⟩
    | none =>
      match userId with
      | some uid =>
        let c := checkInsightQuota false qrows uid now
        if !c.1 then ⟨.rateLimited, icache, c.2, true, false⟩
        else
          match providerContent with
          | none => ⟨.serverError, icache, c.2, true, true⟩
          | some content =>
            let icache1 :=
              cacheInsights cacheWriteFail icache tmdbId mediaType
                (title.getD "") synopsis content now
            ⟨.ok content, icache1, incrementInsightCount false c.2 uid, true, true⟩
      | none =>
        match providerContent with
        | none => ⟨.serverError, icache, qrows, false, true⟩
        | some content =>
          let icache1 :=
            cacheInsights cacheWriteFail icache tmdbId mediaType
              (title.getD "") synopsis content now
          ⟨.ok content, icache1, qrows, false, true⟩

/-- Scenario B fixture: one topic `T`, no posts yet. -/
def scenarioBState0 : ThreadState :=
  ⟨[⟨"T", 550, "movie", "Ending", "What did the ending mean?", "alice", 0⟩], []⟩

/-- Scenario B after post `A` (top level). -/
def scenarioBState1 : ThreadState :=
  (createPostHandler scenarioBState0 "T" "alice" "Post A" none "A" 1).2

/-- Scenario B after reply `B` to `A`. -/
def scenarioBState2 : ThreadState :=
  (createPostHandler scenarioBState1 "T" "bob" "Reply B" (some "A") "B" 2).2

/-! ## Generic list lemmas -/

theorem find?_append_of_none {α : Type} (p : α → Bool) {l1 : List α} (l2 : List α)
    (h : l1.find? p = none) : (l1 ++ l2).find? p = l2.find? p := by
  induction l1 with
  | nil => rfl
  | cons a l ih =>
    by_cases hpa : p a = true
    · rw [List.find?_cons_of_pos _ hpa] at h; cases h
    · rw [List.find?_cons_of_neg _ hpa] at h
      rw [List.cons_append, List.find?_cons_of_neg _ hpa]
      exact ih h

theorem map_ite_id {α : Type} (p : α → Bool) (f : α → α) (l : List α)
    (h : ∀ a ∈ l, p a = false) :
    l.map (fun a => if p a then f a else a) = l := by
  induction l with
  | nil => rfl
  | cons a l ih =>
    rw [List.map_cons, h a (List.mem_cons_self a l)]
    simp only [Bool.false_eq_true, if_false]
    rw [ih (fun b hb => h b (List.mem_cons_of_mem a hb))]

/-! ## C10: determineVerdict is total, guards its division, and is monotone -/

set_option maxHeartbeats 1000000 in
/-- C10: `determineVerdict` is total and its division is guarded — when
`budget = 0` it returns `N/A` for every revenue (the ratio is never used),
when `budget > 0` it returns one of the seven labels chosen by the first
matching threshold on `revenue / budget` in the order 5, 3, 2, 1.2, 0.8,
0.5, and the chosen label is monotone in the ratio. -/
theorem determineVerdict_total_guarded_monotone :
    (∀ r : ℚ, determineVerdict 0 r = "N/A") ∧
    (∀ b r : ℚ, 0 < b →
      determineVerdict b r ∈
        (["Blockbuster", "Super Hit", "Hit", "Average", "Flop", "Super Flop",
          "Disaster"] : List String)) ∧
    (∀ b1 r1 b2 r2 : ℚ, 0 < b1 → 0 < b2 → r1 / b1 ≤ r2 / b2 →
      verdictRank (determineVerdict b1 r1) ≤ verdictRank (determineVerdict b2 r2)) := by
  refine ⟨fun r => by simp [determineVerdict], ?_, ?_⟩
  · intro b r hb
    unfold determineVerdict
    rw [if_neg (ne_of_gt hb)]
    dsimp only
    split_ifs <;> simp
  · intro b1 r1 b2 r2 hb1 hb2 hle
    unfold determineVerdict
    rw [if_neg (ne_of_gt hb1), if_neg (ne_of_gt hb2)]
    dsimp only
    split_ifs <;> first
      | decide
      | linarith

/-- Witness for C10 at concrete inputs: budget 0, a blockbuster ratio, and a
monotone pair of ratios. -/
theorem determineVerdict_total_guarded_monotone_witness :
    determineVerdict 0 7 = "N/A" ∧
    determineVerdict 1 6 ∈
      (["Blockbuster", "Super Hit", "Hit", "Average", "Flop", "Super Flop",
        "Disaster"] : List String) ∧
    verdictRank (determineVerdict 2 1) ≤ verdictRank (determineVerdict 1 10) :=
  ⟨determineVerdict_total_guarded_monotone.1 7,
   determineVerdict_total_guarded_monotone.2.1 1 6 (by norm_num),
   determineVerdict_total_guarded_monotone.2.2 2 1 1 10 (by norm_num) (by norm_num)
     (by norm_num)⟩

/-! ## C6: a cache hit serves insights with no quota or provider effect -/

/-- C6: when the insight cache holds an unexpired entry for the subject, the
insights request returns the cached payload and performs no quota check, no
quota increment and no provider call; both tables are unchanged. -/
theorem insightsHandler_cache_hit_frame (cwFail : Bool)
    (icache : List InsightsEntry) (qrows : List QuotaRow)
    (userId : Option String) (title : Option String) (synopsis : String)
    (providerContent : Option String) (tmdbId : Int) (mediaType : String)
    (now : Nat) (cached : String)
    (htitle : strTruthy title = true)
    (hhit : getInsightsFromCache false icache tmdbId mediaType now = some cached) :
    insightsHandler cwFail icache qrows userId title synopsis providerContent
        tmdbId mediaType now
      = ⟨.ok cached, icache, qrows, false, false⟩ := by
  simp [insightsHandler, htitle, hhit]

/-- Witness for C6: a concrete unexpired entry for movie 550 is served with
quota table and effect flags untouched. -/
theorem insightsHandler_cache_hit_frame_witness :
    insightsHandler false [⟨550, "movie", "Fight Club", "", "payload", 100⟩]
        [⟨"u1", 4, 0, 5⟩] (some "u1") (some "Fight Club") "" (some "fresh")
        550 "movie" 10
      = ⟨.ok "payload", [⟨550, "movie", "Fight Club", "", "payload", 100⟩],
         [⟨"u1", 4, 0, 5⟩], false, false⟩ :=
  insightsHandler_cache_hit_frame false _ _ _ _ _ _ _ _ _ _ (by decide) (by decide)

/-! ## C7: storage errors fail open / degrade to misses / are swallowed -/

/-- C7: a storage error during the quota check fails open (allow, table
untouched); a storage error during a cache read degrades to a miss; a
storage error during a cache write is swallowed, leaving the cache unchanged
and still letting the request of the caller succeed (shown on the generation path
of the insights handler with the cache write failing). -/
theorem storage_errors_fail_open :
    (∀ rows u now, checkInsightQuota true rows u now = (true, rows)) ∧
    (∀ cache tmdbId mediaType t,
      getTMDBFromCache true cache tmdbId mediaType t = none) ∧
    (∀ icache tmdbId mediaType t,
      getInsightsFromCache true icache tmdbId mediaType t = none) ∧
    (∀ cache tmdbId mediaType d now,
      cacheTMDBData true cache tmdbId mediaType d now = cache) ∧
    (∀ icache tmdbId mediaType ti sy ins now,
      cacheInsights true icache tmdbId mediaType ti sy ins now = icache) ∧
    (∀ icache qrows title synopsis content tmdbId mediaType now,
      strTruthy title = true →
      getInsightsFromCache false icache tmdbId mediaType now = none →
      insightsHandler true icache qrows none title synopsis (some content)
          tmdbId mediaType now
        = ⟨.ok content, icache, qrows, false, true⟩) := by
  refine ⟨fun _ _ _ => rfl, fun _ _ _ _ => rfl, fun _ _ _ _ => rfl,
    fun _ _ _ _ _ => rfl, fun _ _ _ _ _ _ _ => rfl, ?_⟩
  intro icache qrows title synopsis content tmdbId mediaType now htitle hmiss
  simp [insightsHandler, htitle, hmiss, cacheInsights]

/-- Witness for C7: the swallowed-cache-write conjunct at a concrete input
(empty cache, anonymous user, fresh generation with the write failing). -/
theorem storage_errors_fail_open_witness :
    insightsHandler true [] [] none (some "Fight Club") "" (some "fresh")
        550 "movie" 10
      = ⟨.ok "fresh", [], [], false, true⟩ :=
  storage_errors_fail_open.2.2.2.2.2 [] [] (some "Fight Club") "" "fresh" 550
    "movie" 10 (by decide) (by decide)

/-! ## C9: topic creation validates the prompt length -/

/-- C9: with a well-formed media type, topic creation succeeds and returns
the new topic exactly when the prompt length lies in [5, 500]; outside the
range it fails with a validation error and writes nothing; on success the
topic row is appended. -/
theorem createTopic_prompt_validation (st : ThreadState) (tmdbId : Int)
    (mediaType title prompt userId newId : String) (now : Nat)
    (hm : mediaType = "movie" ∨ mediaType = "tv") :
    ((createTopicHandler st tmdbId mediaType title prompt userId newId now).1
        = .ok ⟨newId, tmdbId, mediaType, title, prompt, userId, now⟩
      ↔ (5 ≤ prompt.length ∧ prompt.length ≤ 500)) ∧
    (¬(5 ≤ prompt.length ∧ prompt.length ≤ 500) →
      createTopicHandler st tmdbId mediaType title prompt userId newId now
        = (.error .validation, st)) ∧
    ((5 ≤ prompt.length ∧ prompt.length ≤ 500) →
      (createTopicHandler st tmdbId mediaType title prompt userId newId now).2.topics
        = st.topics ++ [⟨newId, tmdbId, mediaType, title, prompt, userId, now⟩]) := by
  have hmb : (mediaType == "movie" || mediaType == "tv") = true := by
    rcases hm with rfl | rfl <;> decide
  by_cases hp : 5 ≤ prompt.length ∧ prompt.length ≤ 500
  · simp [createTopicHandler, hmb, hp.1, hp.2]
  · have : ¬(5 ≤ prompt.length) ∨ ¬(prompt.length ≤ 500) := by tauto
    refine ⟨?_, fun _ => ?_, fun h => absurd h hp⟩ <;>
      rcases this with hbad | hbad <;>
        simp [createTopicHandler, hmb, hbad, hp]

/-- Witness for C9: scenario A — the 25-character prompt
"What did the ending mean?" succeeds, the 2-character prompt "Hi" is
rejected with a validation error and no write. -/
theorem createTopic_prompt_validation_witness :
    (createTopicHandler ⟨[], []⟩ 550 "movie" "Ending" "What did the ending mean?"
        "alice" "T1" 0).1
      = .ok ⟨"T1", 550, "movie", "Ending", "What did the ending mean?", "alice", 0⟩ ∧
    createTopicHandler ⟨[], []⟩ 550 "movie" "Ending" "Hi" "alice" "T1" 0
      = (.error .validation, ⟨[], []⟩) :=
  ⟨(createTopic_prompt_validation ⟨[], []⟩ 550 "movie" "Ending"
      "What did the ending mean?" "alice" "T1" 0 (Or.inl rfl)).1.2 (by decide),
   (createTopic_prompt_validation ⟨[], []⟩ 550 "movie" "Ending" "Hi" "alice"
      "T1" 0 (Or.inl rfl)).2.1 (by decide)⟩

/-! ## C5: TMDB cache round-trip, strict expiry, upsert-on-write -/

theorem getTMDB_of_uniform (cache : List CacheEntry) (tmdbId : Int)
    (mediaType : String) (d : String) (x now : Nat)
    (hall : ∀ e ∈ cache, cacheKeyMatch tmdbId mediaType e = true →
      e.data = d ∧ e.expiresAt = x)
    (hex : ∃ e ∈ cache, cacheKeyMatch tmdbId mediaType e = true)
    (ht : now < x) :
    getTMDBFromCache false cache tmdbId mediaType now = some d := by
  induction cache with
  | nil => rcases hex with ⟨e, he, _⟩; cases he
  | cons a l ih =>
    by_cases hk : cacheKeyMatch tmdbId mediaType a = true
    · obtain ⟨hd, hx⟩ := hall a (List.mem_cons_self a l) hk
      simp [getTMDBFromCache, List.find?_cons, hk, hx, ht, hd]
    · have hall' : ∀ e ∈ l, cacheKeyMatch tmdbId mediaType e = true →
          e.data = d ∧ e.expiresAt = x :=
        fun e he hke => hall e (List.mem_cons_of_mem a he) hke
      have hex' : ∃ e ∈ l, cacheKeyMatch tmdbId mediaType e = true := by
        rcases hex with ⟨e, he, hke⟩
        rcases List.mem_cons.1 he with rfl | he'
        · exact absurd hke hk
        · exact ⟨e, he', hke⟩
      have := ih hall' hex'
      simp only [getTMDBFromCache, Bool.false_eq_true, if_false] at this ⊢
      rw [List.find?_cons_of_neg _ (by simp [hk])]
      exact this

theorem upsertTMDB_uniform (cache : List CacheEntry) (tmdbId : Int)
    (mediaType : String) (d : String) (x : Nat) :
    (∀ e ∈ upsertTMDB cache tmdbId mediaType d x,
        cacheKeyMatch tmdbId mediaType e = true → e.data = d ∧ e.expiresAt = x) ∧
    (∃ e ∈ upsertTMDB cache tmdbId mediaType d x,
        cacheKeyMatch tmdbId mediaType e = true) := by
  unfold upsertTMDB
  by_cases h : cache.any (cacheKeyMatch tmdbId mediaType) = true
  · rw [if_pos h]
    constructor
    · intro e he hk
      rcases List.mem_map.1 he with ⟨a, _, rfl⟩
      by_cases hka : cacheKeyMatch tmdbId mediaType a = true
      · simp [hka]
      · rw [if_neg hka] at hk ⊢
        exact absurd hk hka
    · rcases List.any_eq_true.1 h with ⟨a, ha, hka⟩
      refine ⟨{ a with data := d, expiresAt := x }, List.mem_map.2 ⟨a, ha, ?_⟩, ?_⟩
      · rw [if_pos hka]
      · simpa [cacheKeyMatch] using hka
  · rw [if_neg h]
    constructor
    · intro e he hk
      rcases List.mem_append.1 he with he' | he'
      · exact absurd (List.any_eq_true.2 ⟨e, he', hk⟩) h
      · rcases List.mem_singleton.1 he' with rfl
        exact ⟨rfl, rfl⟩
    · exact ⟨⟨tmdbId, mediaType, d, x⟩, List.mem_append_right _ (List.mem_singleton.2 rfl),
        by simp [cacheKeyMatch]⟩

/-- C5: `put` followed immediately by `get` returns the stored payload;
`get` yields a miss (not an error) whenever every matching entry has expired
at or before the read time — which subsumes the no-entry case; a second
`put` for the same key replaces payload and expiry rather than failing, so a
`get` after two `put`s sees the second payload. -/
theorem tmdbCache_roundtrip (tmdbId : Int) (mediaType : String) :
    (∀ cache d now,
      getTMDBFromCache false (cacheTMDBData false cache tmdbId mediaType d now)
        tmdbId mediaType now = some d) ∧
    (∀ cache t,
      (∀ e ∈ cache, cacheKeyMatch tmdbId mediaType e = true → e.expiresAt ≤ t) →
      getTMDBFromCache false cache tmdbId mediaType t = none) ∧
    (∀ cache d1 d2 n1 n2,
      getTMDBFromCache false
        (cacheTMDBData false (cacheTMDBData false cache tmdbId mediaType d1 n1)
          tmdbId mediaType d2 n2) tmdbId mediaType n2 = some d2) := by
  have put_get : ∀ (cache : List CacheEntry) d now,
      getTMDBFromCache false (cacheTMDBData false cache tmdbId mediaType d now)
        tmdbId mediaType now = some d := by
    intro cache d now
    obtain ⟨hall, hex⟩ := upsertTMDB_uniform cache tmdbId mediaType d (now + tmdbCacheTtlMs)
    exact getTMDB_of_uniform _ _ _ _ _ _ hall hex
      (by simp [tmdbCacheTtlMs, msPerDay])
  refine ⟨put_get, ?_, fun cache d1 d2 n1 n2 => put_get _ d2 n2⟩
  intro cache t hexp
  have hnone : cache.find?
      (fun e => cacheKeyMatch tmdbId mediaType e && decide (t < e.expiresAt)) = none := by
    rw [List.find?_eq_none]
    intro e he
    simp only [Bool.and_eq_true, decide_eq_true_eq, not_and]
    intro hk
    exact not_lt.2 (hexp e he hk)
  simp only [getTMDBFromCache, Bool.false_eq_true, if_false]
  rw [hnone]

/-- Witness for C5: the miss conjunct at a concrete input — an entry expired
exactly at the read time is a miss. -/
theorem tmdbCache_roundtrip_witness :
    getTMDBFromCache false [⟨550, "movie", "payload", 100⟩] 550 "movie" 100 = none :=
  (tmdbCache_roundtrip 550 "movie").2.1 [⟨550, "movie", "payload", 100⟩] 100 (by decide)

/-! ## C2: the counter never increments, so the sixth check still allows -/

theorem not_userEq_of_find?_none {rows : List QuotaRow} {u : String}
    (h : rows.find? (fun r => r.userId == u) = none) :
    ∀ r ∈ rows, (r.userId == u) = false := by
  intro r hr
  have := List.find?_eq_none.1 h r hr
  simpa using this

theorem checkInsightQuota_fresh (rows : List QuotaRow) (u : String) (t : Nat)
    (h : rows.find? (fun r => r.userId == u) = none) :
    checkInsightQuota false rows u t = (true, rows ++ [⟨u, 0, t, 5⟩]) := by
  simp [checkInsightQuota, h]

theorem find?_quota_append (rows : List QuotaRow) (u : String)
    (c last lim : Nat) (h : ∀ r ∈ rows, (r.userId == u) = false) :
    (rows ++ [⟨u, c, last, lim⟩] : List QuotaRow).find? (fun r => r.userId == u)
      = some ⟨u, c, last, lim⟩ := by
  rw [find?_append_of_none _ _ (List.find?_eq_none.2 (by
    intro r hr
    simp [h r hr]))]
  simp

theorem checkInsightQuota_same_window (rows : List QuotaRow) (u : String)
    (c t lim : Nat) (h : ∀ r ∈ rows, (r.userId == u) = false) :
    checkInsightQuota false (rows ++ [⟨u, c, t, lim⟩]) u t
      = (decide (c < lim), rows ++ [⟨u, c, t, lim⟩]) := by
  unfold checkInsightQuota
  rw [find?_quota_append rows u c t lim h]
  simp [msPerDay]

theorem checkInsightQuota_window_elapsed (rows : List QuotaRow) (u : String)
    (c t lim : Nat) (h : ∀ r ∈ rows, (r.userId == u) = false) :
    checkInsightQuota false (rows ++ [⟨u, c, t, lim⟩]) u (t + msPerDay)
      = (true, rows ++ [⟨u, 0, t + msPerDay, lim⟩]) := by
  unfold checkInsightQuota
  rw [find?_quota_append rows u c t lim h]
  simp only [Nat.add_sub_cancel_left, le_refl, if_true, Bool.false_eq_true, if_false,
    List.map_append]
  rw [map_ite_id _ _ rows h]
  simp

/-- C2: evaluating the embedded code on the scenario of the claim — a fresh
user running check-allow-then-increment cycles at a fixed clock. Because the
increment in the source performs Column-object arithmetic, its UPDATE always
fails and is swallowed, so after five full cycles the counter of the user
still reads 0, a further increment leaves the row unchanged, and the sixth
check allows instead of denying — a sixth full cycle runs to completion. -/
theorem quota_sixth_check_still_allows :
    quotaRun 5 [] "u1" 0 = (true, [⟨"u1", 0, 0, 5⟩]) ∧
    incrementInsightCount false [⟨"u1", 0, 0, 5⟩] "u1" = [⟨"u1", 0, 0, 5⟩] ∧
    (checkInsightQuota false [⟨"u1", 0, 0, 5⟩] "u1" 0).1 = true ∧
    quotaRun 6 [] "u1" 0 = (true, [⟨"u1", 0, 0, 5⟩]) := by
  decide

/-! ## C4: toggleVote flips a row and is an involution -/

theorem voteKeyMatch_iff (p u : String) (v : VoteRow) :
    voteKeyMatch p u v = true ↔ v.postId = p ∧ v.userId = u := by
  simp [voteKeyMatch]

theorem voteCount_append (l1 l2 : List VoteRow) (p : String) :
    voteCount (l1 ++ l2) p = voteCount l1 p + voteCount l2 p := by
  simp [voteCount, List.filter_append, List.map_append, List.sum_append]

theorem voteCount_split (votes : List VoteRow) (p u : String) :
    voteCount votes p
      = voteCount (votes.filter (fun v => !(voteKeyMatch p u v))) p
        + ((votes.filter (voteKeyMatch p u)).map (fun v => v.value)).sum := by
  induction votes with
  | nil => simp [voteCount]
  | cons a l ih =>
    by_cases hk : voteKeyMatch p u a = true
    · have hp : (a.postId == p) = true := by
        rcases (voteKeyMatch_iff p u a).1 hk with ⟨h1, _⟩
        simp [h1]
      simp only [voteCount, List.filter_cons, hp, hk, Bool.not_true, Bool.false_eq_true,
        if_true, if_false, List.map_cons, List.sum_cons] at ih ⊢
      omega
    · by_cases hp : (a.postId == p) = true
      · simp only [voteCount, List.filter_cons, hp, hk, Bool.not_false, Bool.false_eq_true,
          if_true, if_false, List.map_cons, List.sum_cons] at ih ⊢
        omega
      · simp only [voteCount, List.filter_cons, hp, hk, Bool.not_false, Bool.false_eq_true,
          if_true, if_false] at ih ⊢
        omega

theorem filter_km_singleton (votes : List VoteRow) (p u : String) (w : VoteRow)
    (hfind : votes.find? (voteKeyMatch p u) = some w)
    (H2 : (votes.filter (voteKeyMatch p u)).length ≤ 1) :
    votes.filter (voteKeyMatch p u) = [w] := by
  have hw : w ∈ votes.filter (voteKeyMatch p u) :=
    List.mem_filter.2 ⟨List.mem_of_find?_eq_some hfind, List.find?_some hfind⟩
  cases hl : votes.filter (voteKeyMatch p u) with
  | nil => rw [hl] at hw; cases hw
  | cons x xs =>
    cases xs with
    | nil =>
      rw [hl] at hw
      rcases List.mem_singleton.1 hw with rfl
      rfl
    | cons y ys => rw [hl] at H2; simp at H2

theorem filter_not_km_self (votes : List VoteRow) (p u : String)
    (h : ∀ v ∈ votes, voteKeyMatch p u v = false) :
    votes.filter (fun v => !(voteKeyMatch p u v)) = votes := by
  induction votes with
  | nil => rfl
  | cons a l ih =>
    rw [List.filter_cons]
    simp [h a (List.mem_cons_self a l),
      ih (fun v hv => h v (List.mem_cons_of_mem a hv))]

theorem filter_km_after_delete (votes : List VoteRow) (p u : String) :
    (votes.filter (fun v => !(voteKeyMatch p u v))).filter (voteKeyMatch p u) = [] := by
  induction votes with
  | nil => rfl
  | cons a l ih =>
    rw [List.filter_cons]
    by_cases hk : voteKeyMatch p u a = true
    · simp [hk, ih]
    · simp only [hk, Bool.not_false, Bool.false_eq_true, if_true, if_false]
      rw [List.filter_cons]
      simp [hk, ih]

theorem find?_km_after_delete (votes : List VoteRow) (p u : String) :
    (votes.filter (fun v => !(voteKeyMatch p u v))).find? (voteKeyMatch p u) = none := by
  rw [List.find?_eq_none]
  intro x hx
  have h2 := (List.mem_filter.1 hx).2
  simp only [Bool.not_eq_true'] at h2
  simp [h2]

/-- The reachable-state invariant behind C4, maintained by `toggleVote`
itself (the only writer of `post_votes`): every row carries value 1, and at
most one row exists per `(post, user)` key (the primary key of the table). -/
theorem toggleVote_preserves_invariant (votes : List VoteRow) (p u : String)
    (H1 : ∀ v ∈ votes, v.value = 1)
    (H2 : ∀ p' u', (votes.filter (voteKeyMatch p' u')).length ≤ 1) :
    (∀ v ∈ (toggleVote votes p u).2, v.value = 1) ∧
    (∀ p' u', ((toggleVote votes p u).2.filter (voteKeyMatch p' u')).length ≤ 1) := by
  unfold toggleVote
  cases hfind : votes.find? (voteKeyMatch p u) with
  | some w =>
    refine ⟨fun v hv => H1 v (List.mem_of_mem_filter hv), fun p' u' => ?_⟩
    exact le_trans (((List.filter_sublist votes).filter (voteKeyMatch p' u')).length_le)
      (H2 p' u')
  | none =>
    have hnomatch : ∀ v ∈ votes, voteKeyMatch p u v = false := by
      intro v hv
      have := List.find?_eq_none.1 hfind v hv
      simpa using this
    constructor
    · intro v hv
      rcases List.mem_append.1 hv with hv' | hv'
      · exact H1 v hv'
      · rcases List.mem_singleton.1 hv' with rfl
        rfl
    · intro p' u'
      rw [List.filter_append]
      by_cases hsame : voteKeyMatch p' u' ⟨p, u, 1⟩ = true
      · have hpp : p' = p ∧ u' = u := by
          rcases (voteKeyMatch_iff p' u' ⟨p, u, 1⟩).1 hsame with ⟨h1, h2⟩
          exact ⟨h1.symm, h2.symm⟩
        rcases hpp with ⟨rfl, rfl⟩
        have hzero : votes.filter (voteKeyMatch p' u') = [] := by
          rw [List.filter_eq_nil_iff]
          intro v hv
          simp [hnomatch v hv]
        rw [hzero]
        simp [List.filter_cons, hsame]
      · have : ([⟨p, u, 1⟩] : List VoteRow).filter (voteKeyMatch p' u') = [] := by
          simp only [List.filter_cons]
          rw [if_neg hsame]
          rfl
        rw [this, List.append_nil]
        exact H2 p' u'

/-- C4: over reachable vote states (each row holds value 1; at most one row
per key, the primary key of the table), two immediate `toggleVote` calls for
the same `(post, user)` restore the rows for that pair and the vote
count of the post, and the second call reports `voted = false` whenever the first
reported `voted = true`. A single call flips row presence — deleting the
existing row, else inserting one with value 1 — and returns the new total. -/
theorem toggleVote_involution (votes : List VoteRow) (p u : String)
    (H1 : ∀ v ∈ votes, voteKeyMatch p u v = true → v.value = 1)
    (H2 : (votes.filter (voteKeyMatch p u)).length ≤ 1) :
    ((toggleVote (toggleVote votes p u).2 p u).2.filter (voteKeyMatch p u)
        = votes.filter (voteKeyMatch p u)) ∧
    voteCount (toggleVote (toggleVote votes p u).2 p u).2 p = voteCount votes p ∧
    ((toggleVote votes p u).1.1 = true →
      (toggleVote (toggleVote votes p u).2 p u).1.1 = false) ∧
    (votes.find? (voteKeyMatch p u) = none →
      (toggleVote votes p u).2 = votes ++ [⟨p, u, 1⟩] ∧
      (toggleVote votes p u).1.1 = true) ∧
    (∀ w, votes.find? (voteKeyMatch p u) = some w →
      (toggleVote votes p u).2 = votes.filter (fun v => !(voteKeyMatch p u v)) ∧
      (toggleVote votes p u).1.1 = false) ∧
    (toggleVote votes p u).1.2 = voteCount (toggleVote votes p u).2 p := by
  have hkmrow : voteKeyMatch p u ⟨p, u, 1⟩ = true := by simp [voteKeyMatch]
  cases hfind : votes.find? (voteKeyMatch p u) with
  | none =>
    have hnomatch : ∀ v ∈ votes, voteKeyMatch p u v = false := by
      intro v hv
      have := List.find?_eq_none.1 hfind v hv
      simpa using this
    have h1 : (toggleVote votes p u).2 = votes ++ [⟨p, u, 1⟩] := by
      unfold toggleVote
      rw [hfind]
    have h1v : (toggleVote votes p u).1.1 = true := by
      unfold toggleVote
      rw [hfind]
    have hfind2 : (votes ++ [⟨p, u, 1⟩] : List VoteRow).find? (voteKeyMatch p u)
        = some ⟨p, u, 1⟩ := by
      rw [find?_append_of_none _ _ hfind, List.find?_cons_of_pos _ hkmrow]
    have h2 : (toggleVote (toggleVote votes p u).2 p u).2 = votes := by
      rw [h1]
      unfold toggleVote
      rw [hfind2]
      simp only [List.filter_append]
      rw [filter_not_km_self votes p u hnomatch]
      simp [hkmrow]
    have h2v : (toggleVote (toggleVote votes p u).2 p u).1.1 = false := by
      rw [h1]
      unfold toggleVote
      rw [hfind2]
    have h6 : (toggleVote votes p u).1.2 = voteCount (toggleVote votes p u).2 p := by
      unfold toggleVote
      rw [hfind]
    exact ⟨by rw [h2], by rw [h2], fun _ => h2v, fun _ => ⟨h1, h1v⟩,
      fun w hw => absurd hw (by simp), h6⟩
  | some w =>
    have hkw : voteKeyMatch p u w = true := List.find?_some hfind
    have hwval : w.value = 1 := H1 w (List.mem_of_find?_eq_some hfind) hkw
    have hwsing : votes.filter (voteKeyMatch p u) = [w] :=
      filter_km_singleton votes p u w hfind H2
    have hweq : w = ⟨p, u, 1⟩ := by
      rcases (voteKeyMatch_iff p u w).1 hkw with ⟨hp1, hu1⟩
      cases w
      simp_all
    have h1 : (toggleVote votes p u).2 = votes.filter (fun v => !(voteKeyMatch p u v)) := by
      unfold toggleVote
      rw [hfind]
    have h1v : (toggleVote votes p u).1.1 = false := by
      unfold toggleVote
      rw [hfind]
    have h2 : (toggleVote (toggleVote votes p u).2 p u).2
        = votes.filter (fun v => !(voteKeyMatch p u v)) ++ [⟨p, u, 1⟩] := by
      rw [h1]
      unfold toggleVote
      rw [find?_km_after_delete votes p u]
    have hc1 : (toggleVote (toggleVote votes p u).2 p u).2.filter (voteKeyMatch p u)
        = votes.filter (voteKeyMatch p u) := by
      rw [h2, List.filter_append, filter_km_after_delete votes p u, hwsing, hweq]
      simp [hkmrow]
    have hc2 : voteCount (toggleVote (toggleVote votes p u).2 p u).2 p
        = voteCount votes p := by
      rw [h2, voteCount_append, voteCount_split votes p u, hwsing]
      simp [voteCount, hweq]
    have hc3 : (toggleVote votes p u).1.1 = true →
        (toggleVote (toggleVote votes p u).2 p u).1.1 = false := by
      intro hcontra
      rw [h1v] at hcontra
      cases hcontra
    have h6 : (toggleVote votes p u).1.2 = voteCount (toggleVote votes p u).2 p := by
      unfold toggleVote
      rw [hfind]
    exact ⟨hc1, hc2, hc3, fun hnone => absurd hnone (by simp),
      fun w2 hw2 => ⟨h1, h1v⟩, h6⟩

/-- Witness for C4: toggling twice on a one-row table restores the row set
and the count, starting from a state where the user has an active vote. -/
theorem toggleVote_involution_witness :
    ((toggleVote (toggleVote [⟨"p1", "u1", 1⟩] "p1" "u1").2 "p1" "u1").2.filter
        (voteKeyMatch "p1" "u1") = [⟨"p1", "u1", 1⟩]) ∧
    voteCount (toggleVote (toggleVote [⟨"p1", "u1", 1⟩] "p1" "u1").2 "p1" "u1").2 "p1"
      = voteCount [⟨"p1", "u1", 1⟩] "p1" := by
  have h := toggleVote_involution [⟨"p1", "u1", 1⟩] "p1" "u1" (by decide) (by decide)
  exact ⟨by rw [h.1]; decide, h.2.1⟩

/-! ## C1: the implemented depth calculation does not flatten -/

/-- C1: evaluating the implemented handler on end-to-end scenario B — post
`A` at depth 0, reply `B` to `A` at depth 1, then reply `C` to `B`. The code
stores `C` with parent `B` (not the depth-0 ancestor `A`) and depth
`parent.depth + 1 = 2`, contradicting the documented flattening policy
(depth capped at 1, parent reattached to the depth-0 ancestor, reattachment
notice in the response). -/
theorem createPost_scenarioB_no_flattening :
    scenarioBState2.posts
      = [⟨"A", "T", none, "alice", "Post A", 0, 1⟩,
         ⟨"B", "T", some "A", "bob", "Reply B", 1, 2⟩] ∧
    (createPostHandler scenarioBState2 "T" "carol" "Reply C" (some "B") "C" 3).1
      = .ok ⟨"C", "T", some "B", "carol", "Reply C", 2, 3⟩ :=
  ⟨rfl, rfl⟩

/-! ## C3: only the topic is checked; a dangling parent is not an error -/

/-- Counterexample to C3: with topic `T` present and a supplied parent id
`zzz` that resolves to no post, the create-post operation succeeds (no
`NotFoundError`), persists the post — with depth 0 and the dangling parent
id stored verbatim — and bumps the activity timestamp of the topic. -/
theorem createPost_dangling_parent_counterexample :
    (createPostHandler
        ⟨[⟨"T", 550, "movie", "Ending", "What did the ending mean?", "alice", 0⟩], []⟩
        "T" "bob" "hello" (some "zzz") "P1" 5).1
      = .ok ⟨"P1", "T", some "zzz", "bob", "hello", 0, 5⟩ ∧
    (createPostHandler
        ⟨[⟨"T", 550, "movie", "Ending", "What did the ending mean?", "alice", 0⟩], []⟩
        "T" "bob" "hello" (some "zzz") "P1" 5).2.posts
      = [⟨"P1", "T", some "zzz", "bob", "hello", 0, 5⟩] ∧
    (createPostHandler
        ⟨[⟨"T", 550, "movie", "Ending", "What did the ending mean?", "alice", 0⟩], []⟩
        "T" "bob" "hello" (some "zzz") "P1" 5).2.topics
      = [⟨"T", 550, "movie", "Ending", "What did the ending mean?", "alice", 5⟩] :=
  ⟨rfl, rfl, rfl⟩

/-- C3 as amended: with a well-formed body, post creation fails with
`NotFoundError` — persisting no post and bumping no activity timestamp —
exactly when the topic does not resolve; a supplied parent id that does not
resolve within the topic is not an error: the post is created at depth 0
with the supplied parent id stored verbatim. -/
theorem createPost_resolution (st : ThreadState) (topicId userId body : String)
    (parentPostId : Option String) (newId : String) (now : Nat)
    (hbody : (decide (1 ≤ body.length) && decide (body.length ≤ 5000)) = true) :
    (st.topics.find? (fun t => t.id == topicId) = none →
      createPostHandler st topicId userId body parentPostId newId now
        = (.error .notFound, st)) ∧
    (∀ tp, st.topics.find? (fun t => t.id == topicId) = some tp →
      strTruthy parentPostId = true →
      (postsForTopic st.posts topicId).find? (fun p => some p.id == parentPostId) = none →
      (createPostHandler st topicId userId body parentPostId newId now).1
          = .ok ⟨newId, topicId, parentPostId, userId, body, 0, now⟩ ∧
      (createPostHandler st topicId userId body parentPostId newId now).2.posts
          = st.posts ++ [⟨newId, topicId, parentPostId, userId, body, 0, now⟩]) := by
  constructor
  · intro hnone
    unfold createPostHandler
    rw [hbody, hnone]
    rfl
  · intro tp htp htruthy hparent
    unfold createPostHandler
    rw [hbody, htp]
    simp only [htruthy, hparent, if_true]
    exact ⟨rfl, rfl⟩

/-- Witness for C3 (amended): a missing topic is a `NotFoundError` with the
state unchanged, and a dangling parent id under an existing topic yields a
depth-0 post. -/
theorem createPost_resolution_witness :
    createPostHandler ⟨[], []⟩ "T" "bob" "hello" none "P1" 5
      = (.error .notFound, ⟨[], []⟩) ∧
    (createPostHandler
        ⟨[⟨"T", 550, "movie", "Ending", "What did the ending mean?", "alice", 0⟩], []⟩
        "T" "bob" "hello" (some "zzz") "P2" 5).1
      = .ok ⟨"P2", "T", some "zzz", "bob", "hello", 0, 5⟩ :=
  ⟨(createPost_resolution ⟨[], []⟩ "T" "bob" "hello" none "P1" 5 (by decide)).1
      (by decide),
   ((createPost_resolution
        ⟨[⟨"T", 550, "movie", "Ending", "What did the ending mean?", "alice", 0⟩], []⟩
        "T" "bob" "hello" (some "zzz") "P2" 5 (by decide)).2
      ⟨"T", 550, "movie", "Ending", "What did the ending mean?", "alice", 0⟩
      (by decide) (by decide) (by decide)).1⟩

/-! ## C8: actor recent work — filter, sentinel sort, cap at 3, fail to [] -/

theorem mem_insertDescBy {α : Type} (key : α → Nat) (c x : α) (l : List α) :
    x ∈ insertDescBy key c l ↔ x = c ∨ x ∈ l := by
  induction l with
  | nil => simp [insertDescBy]
  | cons a t ih =>
    by_cases h : key a < key c
    · simp only [insertDescBy, if_pos h, List.mem_cons]
    · simp only [insertDescBy, if_neg h, List.mem_cons, ih]
      tauto

theorem insertDescBy_pairwise {α : Type} (key : α → Nat) (c : α) (l : List α)
    (h : l.Pairwise (fun a b => key b ≤ key a)) :
    (insertDescBy key c l).Pairwise (fun a b => key b ≤ key a) := by
  induction l with
  | nil => simp [insertDescBy]
  | cons a t ih =>
    rcases List.pairwise_cons.1 h with ⟨ha, ht⟩
    by_cases hlt : key a < key c
    · rw [insertDescBy, if_pos hlt]
      refine List.pairwise_cons.2 ⟨?_, h⟩
      intro y hy
      rcases List.mem_cons.1 hy with rfl | hy'
      · exact le_of_lt hlt
      · exact le_trans (ha y hy') (le_of_lt hlt)
    · rw [insertDescBy, if_neg hlt]
      refine List.pairwise_cons.2 ⟨?_, ih ht⟩
      intro y hy
      rcases (mem_insertDescBy key c y t).1 hy with rfl | hy'
      · omega
      · exact ha y hy'

theorem insertDescBy_perm {α : Type} (key : α → Nat) (c : α) (l : List α) :
    List.Perm (insertDescBy key c l) (c :: l) := by
  induction l with
  | nil => simp [insertDescBy]
  | cons a t ih =>
    by_cases h : key a < key c
    · rw [insertDescBy, if_pos h]
    · rw [insertDescBy, if_neg h]
      exact List.Perm.trans (List.Perm.cons a ih) (List.Perm.swap c a t)

theorem sortDescBy_pairwise {α : Type} (key : α → Nat) (l : List α) :
    (sortDescBy key l).Pairwise (fun a b => key b ≤ key a) := by
  induction l with
  | nil => simp [sortDescBy]
  | cons a t ih => exact insertDescBy_pairwise key a _ ih

theorem sortDescBy_perm {α : Type} (key : α → Nat) (l : List α) :
    List.Perm (sortDescBy key l) l := by
  induction l with
  | nil => simp [sortDescBy]
  | cons a t ih =>
    exact List.Perm.trans (insertDescBy_perm key a _) (List.Perm.cons a ih)

/-- Counterexample to C8: with one dated credit (in range) and one undated
credit, the undated credit sorts first, not last — the far-future sentinel
makes it the greatest key of the descending sort — so the returned order is
["Undated Movie", "Dated Movie"], not ["Dated Movie", "Undated Movie"]. -/
theorem fetchActorProjects_undated_first_counterexample :
    fetchActorProjects false
      [⟨1, some "Dated Movie", none, some 1700000000000, none⟩,
       ⟨2, some "Undated Movie", none, none, none⟩] 1600000000000
      = ["Undated Movie", "Dated Movie"] ∧
    (["Undated Movie", "Dated Movie"] : List String)
      ≠ ["Dated Movie", "Undated Movie"] := by
  decide

/-- C8 as amended: the enrichment returns at most 3 titles; it keeps exactly
the credits that are undated or dated at or after the two-year cutoff; the
kept credits are ordered descending by the sentinel sort key (undated items
carry the far-future sentinel, hence sort first, ahead of all genuinely
dated items); the sort is a permutation of the kept credits; and any
provider failure yields the empty list. -/
theorem fetchActorProjects_spec :
    (∀ providerFail credits cutoff,
      (fetchActorProjects providerFail credits cutoff).length ≤ 3) ∧
    (∀ (credits : List CastCredit) cutoff c, c ∈ credits.filter (creditKeep cutoff) →
      creditDate c = none ∨ ∃ d, creditDate c = some d ∧ cutoff ≤ d) ∧
    (∀ (credits : List CastCredit) cutoff,
      (sortDescBy creditSortKey (credits.filter (creditKeep cutoff))).Pairwise
        (fun a b => creditSortKey b ≤ creditSortKey a)) ∧
    (∀ (credits : List CastCredit) cutoff,
      List.Perm (sortDescBy creditSortKey (credits.filter (creditKeep cutoff)))
        (credits.filter (creditKeep cutoff))) ∧
    (∀ credits cutoff, fetchActorProjects true credits cutoff = []) := by
  refine ⟨?_, ?_, fun credits cutoff => sortDescBy_pairwise _ _,
    fun credits cutoff => sortDescBy_perm _ _, fun _ _ => rfl⟩
  · intro providerFail credits cutoff
    cases providerFail
    · unfold fetchActorProjects
      simp only [Bool.false_eq_true, if_false, List.length_map]
      exact le_trans (List.length_take_le 3 _) (le_refl 3)
    · simp [fetchActorProjects]
  · intro credits cutoff c hc
    have hk := (List.mem_filter.1 hc).2
    unfold creditKeep at hk
    cases hd : creditDate c with
    | none => exact Or.inl rfl
    | some d =>
      rw [hd] at hk
      exact Or.inr ⟨d, rfl, by simpa using hk⟩

/-- Witness for C8 (amended): the filter-membership conjunct at a concrete
input — a credit dated on the cutoff itself is kept and is in range. -/
theorem fetchActorProjects_spec_witness :
    creditDate ⟨1, some "Dated Movie", none, some 1600000000000, none⟩ = none ∨
    ∃ d, creditDate ⟨1, some "Dated Movie", none, some 1600000000000, none⟩ = some d ∧
      1600000000000 ≤ d :=
  fetchActorProjects_spec.2.1
    [⟨1, some "Dated Movie", none, some 1600000000000, none⟩] 1600000000000
    ⟨1, some "Dated Movie", none, some 1600000000000, none⟩ (by decide)

end CineDeep
